import Mathlib

/-!
Shallow embedding of the fractic-io/rust-aws-s3 storage facade.

The Rust crate wraps the AWS S3 SDK behind a small backend trait
(`S3BackendImpl`, src/util/backend.rs) and a facade (`S3Util`, src/util.rs).
Here the trait becomes a structure of state-passing functions over an
abstract backend state, SDK result types become plain inductive types, and
each facade method is translated match-arm by match-arm.  Async calls are
modelled as pure state transitions; the debug payload attached by
`with_debug` (a `format!` of the underlying error) is abstracted to a
string computed by `debugString` — no theorem depends on its content.
-/

set_option autoImplicit false

/-! ## Error model (src/errors.rs and aws_sdk_s3 error types) -/

/-- Service-level errors of the HeadObject operation: the SDK distinguishes
the NotFound variant from everything else (Unhandled). -/
inductive HeadObjectError where
  | NotFound (msg : String)
  | Unhandled (msg : String)
  deriving DecidableEq, Repr

/-- Service-level errors of the GetObject operation. -/
inductive GetObjectError where
  | NoSuchKey (msg : String)
  | InvalidObjectState (msg : String)
  | Unhandled (msg : String)
  deriving DecidableEq, Repr

/-- Service-level errors of the PutObject operation. -/
inductive PutObjectError where
  | Unhandled (msg : String)
  deriving DecidableEq, Repr

/-- Service-level errors of the CopyObject operation. -/
inductive CopyObjectError where
  | ObjectNotInActiveTierError (msg : String)
  | Unhandled (msg : String)
  deriving DecidableEq, Repr

/-- Service-level errors of the DeleteObject operation. -/
inductive DeleteObjectError where
  | Unhandled (msg : String)
  deriving DecidableEq, Repr

/-- Service-level errors of the ListObjectsV2 operation. -/
inductive ListObjectsV2Error where
  | NoSuchBucket (msg : String)
  | Unhandled (msg : String)
  deriving DecidableEq, Repr

/-- aws_sdk_s3::error::SdkError: a service error carrying the operation's
error type, or one of the transport-level failures that do not come from
the service. -/
inductive SdkError (ε : Type) where
  | ConstructionFailure (msg : String)
  | TimeoutError (msg : String)
  | DispatchFailure (msg : String)
  | ResponseError (msg : String)
  | ServiceError (e : ε)
  deriving DecidableEq, Repr

/-- Stand-in for the Rust `format!("\x7b:?\x7d", e)` debug payload attached by
`with_debug`; purely diagnostic. -/
def SdkError.debugString {ε : Type} : SdkError ε → String
  | .ConstructionFailure m => m
  | .TimeoutError m => m
  | .DispatchFailure m => m
  | .ResponseError m => m
  | .ServiceError _ => "ServiceError"

/-- Stand-in for `HeadObjectError::to_string()`. -/
def HeadObjectError.toString : HeadObjectError → String
  | .NotFound m => m
  | .Unhandled m => m

/-- The error types defined in src/errors.rs: `S3NotFound` is user visible
and carries no context, the internal kinds carry the call-site context tag,
a message and a debug payload.  `S3ConnectionError` is the callout-failure
kind. -/
inductive GenericServerError where
  | S3NotFound
  | S3ConnectionError (ctx msg debug : String)
  | S3ItemParsingError (ctx msg debug : String)
  | S3InvalidOperation (ctx msg debug : String)
  deriving DecidableEq, Repr

/-! ## SDK output types (only the fields the facade reads) -/

/-- Object metadata: a string-to-string mapping, modelled as an association
list; `none` means the backend omitted the map. -/
abbrev Metadata := List (String × String)

/-- HeadObjectOutput: the facade reads `metadata` and `content_length`. -/
structure HeadObjectOutput where
  metadata : Option Metadata
  content_length : Option Int
  deriving DecidableEq, Repr

instance {ε α : Type} [DecidableEq ε] [DecidableEq α] : DecidableEq (Except ε α)
  | .error a, .error b =>
      if h : a = b then isTrue (by rw [h]) else isFalse (by simp [h])
  | .error _, .ok _ => isFalse (by simp)
  | .ok _, .error _ => isFalse (by simp)
  | .ok a, .ok b =>
      if h : a = b then isTrue (by rw [h]) else isFalse (by simp [h])

/-- GetObjectOutput: the body is a stream whose `collect()` can itself fail;
modelled as the result of draining it (error message or the bytes as a
UTF-8 string). -/
structure GetObjectOutput where
  body : Except String String
  deriving DecidableEq, Repr

structure PutObjectOutput where
  deriving DecidableEq, Repr

structure CopyObjectOutput where
  deriving DecidableEq, Repr

structure DeleteObjectOutput where
  deriving DecidableEq, Repr

/-! ## Backend capability trait (src/util/backend.rs, `S3BackendImpl`)

Each operation takes the backend state, the bucket and its arguments and
returns the SDK result together with the successor state. -/

structure S3BackendImpl (σ : Type) where
  put_object : σ → String → String → String → Option Metadata →
    (Except (SdkError PutObjectError) PutObjectOutput) × σ
  get_object : σ → String → String →
    (Except (SdkError GetObjectError) GetObjectOutput) × σ
  head_object : σ → String → String →
    (Except (SdkError HeadObjectError) HeadObjectOutput) × σ
  copy_object : σ → String → String → String →
    (Except (SdkError CopyObjectError) CopyObjectOutput) × σ
  delete_object : σ → String → String →
    (Except (SdkError DeleteObjectError) DeleteObjectOutput) × σ

/-- The facade: a backend instance plus the bucket name (src/util.rs). -/
structure S3Util (σ : Type) where
  backend : S3BackendImpl σ
  bucket : String

/-! ## Facade operations (src/util.rs), translated match-arm by match-arm.

Serialization is a type-class argument in Rust (`serde`); here the
serialize/deserialize functions are explicit parameters, failing with the
serde error message. -/

/-- S3Util::put_serializable: serialize (failure is `S3InvalidOperation`),
then `put_object` (failure is wrapped as `S3ConnectionError`). -/
def S3Util.put_serializable {σ α : Type} (u : S3Util σ)
    (serialize : α → Except String String) (st : σ) (key : String) (data : α) :
    (Except GenericServerError Unit) × σ :=
  match serialize data with
  | .error e =>
      (.error (.S3InvalidOperation "S3Util::put_serializable"
        "Failed to serialize object." e), st)
  | .ok serialized =>
      match u.backend.put_object st u.bucket key serialized none with
      | (.error e, st1) =>
          (.error (.S3ConnectionError "S3Util::put_serializable"
            "Failed to put serializable." e.debugString), st1)
      | (.ok _, st1) => (.ok (), st1)

/-- S3Util::get_serializable: any `get_object` failure is mapped (by
`map_err(|_| S3NotFound::default())`) to `S3NotFound`; a body-collect
failure becomes `S3ConnectionError`; a deserialization failure becomes
`S3ItemParsingError`. -/
def S3Util.get_serializable {σ α : Type} (u : S3Util σ)
    (deserialize : String → Except String α) (st : σ) (key : String) :
    (Except GenericServerError α) × σ :=
  match u.backend.get_object st u.bucket key with
  | (.error _, st1) => (.error .S3NotFound, st1)
  | (.ok output, st1) =>
      match output.body with
      | .error e =>
          (.error (.S3ConnectionError "S3Util::get_serializable"
            "Failed to read object body." e), st1)
      | .ok bytes =>
          match deserialize bytes with
          | .error e =>
              (.error (.S3ItemParsingError "S3Util::get_serializable"
                "Failed to deserialize object." e), st1)
          | .ok deserialized => (.ok deserialized, st1)

/-- S3Util::move_object: copy, and only on success delete the source; each
step's failure is wrapped as `S3ConnectionError`. -/
def S3Util.move_object {σ : Type} (u : S3Util σ) (st : σ)
    (source_key target_key : String) : (Except GenericServerError Unit) × σ :=
  match u.backend.copy_object st u.bucket source_key target_key with
  | (.error e, st1) =>
      (.error (.S3ConnectionError "S3Util::move_object"
        "Failed to copy object." e.debugString), st1)
  | (.ok _, st1) =>
      match u.backend.delete_object st1 u.bucket source_key with
      | (.error e, st2) =>
          (.error (.S3ConnectionError "S3Util::move_object"
            "Failed to delete object." e.debugString), st2)
      | (.ok _, st2) => (.ok (), st2)

/-- S3Util::key_exists: success maps to `true`, a NotFound service error to
`false`, any other service error or transport failure to a
`S3ConnectionError`. -/
def S3Util.key_exists {σ : Type} (u : S3Util σ) (st : σ) (key : String) :
    (Except GenericServerError Bool) × σ :=
  match u.backend.head_object st u.bucket key with
  | (.ok _, st1) => (.ok true, st1)
  | (.error sdk_error, st1) =>
      match sdk_error with
      | .ServiceError e =>
          match e with
          | .NotFound _ => (.ok false, st1)
          | e2 =>
              (.error (.S3ConnectionError "S3Util::key_exists"
                "Unexpected error running HeadObject operation." e2.toString), st1)
      | e2 =>
          (.error (.S3ConnectionError "S3Util::key_exists"
            "Failed to check key existance." e2.debugString), st1)

/-- S3Util::get_metadata_if_key_exists: success yields
`some (metadata.unwrap_or_default())` — a missing map is normalized to the
empty mapping — a NotFound service error yields `none`, everything else a
`S3ConnectionError`.  (The source reuses the `S3Util::key_exists` context
tag here.) -/
def S3Util.get_metadata_if_key_exists {σ : Type} (u : S3Util σ) (st : σ)
    (key : String) : (Except GenericServerError (Option Metadata)) × σ :=
  match u.backend.head_object st u.bucket key with
  | (.ok output, st1) => (.ok (some (output.metadata.getD [])), st1)
  | (.error sdk_error, st1) =>
      match sdk_error with
      | .ServiceError e =>
          match e with
          | .NotFound _ => (.ok none, st1)
          | e2 =>
              (.error (.S3ConnectionError "S3Util::key_exists"
                "Unexpected error running HeadObject operation." e2.toString), st1)
      | e2 =>
          (.error (.S3ConnectionError "S3Util::key_exists"
            "Failed to check key existance." e2.debugString), st1)

/-! ## In-memory backend

Modelled from the spec: the Backend Capability Interface contract of §4.2
(put stores/overwrites, get/head fail with a distinguishable not-found
condition when the key is absent, copy is a server-side copy that does not
delete the source, delete removes the key and is idempotent).  The real
implementation of the trait is the AWS client (an external collaborator);
this in-memory instance is the substitutable test double the spec licenses,
with fault-injection hooks for the copy and delete steps so that the
failure scenarios of the claims are expressible. -/

/-- One stored object: its body bytes and optional metadata. -/
structure MemObject where
  body : String
  metadata : Option Metadata
  deriving DecidableEq, Repr

/-- Store state: association list from (bucket, key) to the stored object;
the first binding for a key wins. -/
abbrev MemStore := List ((String × String) × MemObject)

def memGet : MemStore → String → String → Option MemObject
  | [], _, _ => none
  | (bk, obj) :: rest, b, k => if bk = (b, k) then some obj else memGet rest b k

def memPut (st : MemStore) (b k : String) (obj : MemObject) : MemStore :=
  ((b, k), obj) :: st

def memDelete : MemStore → String → String → MemStore
  | [], _, _ => []
  | (bk, obj) :: rest, b, k =>
      if bk = (b, k) then memDelete rest b k else (bk, obj) :: memDelete rest b k

/-- The in-memory `S3BackendImpl` instance.  `copyFault` / `deleteFault`
inject a failure into every copy / delete call (leaving the store
untouched), which models a backend whose copy or delete step fails. -/
def memBackend (copyFault : Option (SdkError CopyObjectError))
    (deleteFault : Option (SdkError DeleteObjectError)) :
    S3BackendImpl MemStore where
  put_object := fun st b k body md => (.ok {}, memPut st b k ⟨body, md⟩)
  get_object := fun st b k =>
    match memGet st b k with
    | some obj => (.ok ⟨.ok obj.body⟩, st)
    | none => (.error (.ServiceError (.NoSuchKey "NoSuchKey")), st)
  head_object := fun st b k =>
    match memGet st b k with
    | some obj => (.ok ⟨obj.metadata, some (obj.body.length : Int)⟩, st)
    | none => (.error (.ServiceError (.NotFound "NotFound")), st)
  copy_object := fun st b src tgt =>
    match copyFault with
    | some e => (.error e, st)
    | none =>
        match memGet st b src with
        | some obj => (.ok {}, memPut st b tgt obj)
        | none => (.error (.ServiceError (.Unhandled "NoSuchKey")), st)
  delete_object := fun st b k =>
    match deleteFault with
    | some e => (.error e, st)
    | none => (.ok {}, memDelete st b k)

/-! ## Listing paginator (src/util/backend.rs, `list_keys` of the aws client)

The loop requests ListObjectsV2 pages, extends the key accumulator with
the keys of the returned objects (entries without a key are skipped by
`filter_map`), and continues exactly when the page says it is truncated
AND supplies a next continuation token.  The service's successive
responses are modelled as a list consumed in request order; the function
also counts the requests it issues. -/

/-- One entry of a ListObjectsV2 page; the SDK's `Object::key()` is
optional. -/
structure S3Object where
  key : Option String
  deriving DecidableEq, Repr

/-- The fields of ListObjectsV2Output that `list_keys` reads:
`contents()` (defaulting to the empty slice), `is_truncated()` and
`next_continuation_token()`. -/
structure ListObjectsV2Output where
  contents : List S3Object
  is_truncated : Option Bool
  next_continuation_token : Option String
  deriving DecidableEq, Repr

/-- Keys extracted from one page:
`contents().iter().filter_map(|obj| obj.key())`. -/
def pageKeys (page : ListObjectsV2Output) : List String :=
  page.contents.filterMap (fun obj => obj.key)

/-- The loop's continue condition: `is_truncated().unwrap_or(false)` holds
and a `next_continuation_token()` is present. -/
def pageContinues (page : ListObjectsV2Output) : Bool :=
  page.is_truncated.getD false && page.next_continuation_token.isSome

/-- The pagination loop of `list_keys`, over the sequence of responses the
service returns to the successive requests; yields the result of the loop
and the number of page requests issued.  A failed request propagates its
error immediately (the `?` operator), discarding accumulated keys. -/
def list_keys :
    List (Except (SdkError ListObjectsV2Error) ListObjectsV2Output) →
    (Except (SdkError ListObjectsV2Error) (List String)) × Nat
  | [] => (.ok [], 0)
  | resp :: rest =>
      match resp with
      | .error e => (.error e, 1)
      | .ok page =>
          if pageContinues page then
            match list_keys rest with
            | (r, n) => (r.map (fun ks => pageKeys page ++ ks), n + 1)
          else
            (.ok (pageKeys page), 1)

/-- Well-formed response sequence: every page but the last continues, and
the last page terminates the loop (not truncated, or truncated without a
continuation token). -/
def wellFormedPages : List ListObjectsV2Output → Prop
  | [] => False
  | [p] => pageContinues p = false
  | p :: q :: rest => pageContinues p = true ∧ wellFormedPages (q :: rest)

/-! ## Presigned URLs (src/util/backend.rs 164-175 and src/util.rs 199-217)

`PresigningConfig::expires_in` is part of the external AWS SDK; modelled
from its documented contract: it rejects durations longer than one week
with `ExpiresInDurationTooLong`, and the real backend implementation
unwraps that result — a panic, not an error return, when the duration is
too long.  Durations are modelled in whole seconds. -/

inductive PresigningConfigError where
  | ExpiresInDurationTooLong
  deriving DecidableEq, Repr

structure PresigningConfig where
  expires_in : Nat
  deriving DecidableEq, Repr

def ONE_WEEK : Nat := 604800

/-- PresigningConfig::expires_in (the SDK's checked constructor). -/
def PresigningConfig.expiresIn (d : Nat) :
    Except PresigningConfigError PresigningConfig :=
  if d > ONE_WEEK then .error .ExpiresInDurationTooLong else .ok ⟨d⟩

/-- The SDK's presigned request; the facade reads its `uri()`. -/
structure PresignedRequest where
  uri : String
  deriving DecidableEq, Repr

/-- Outcome of a Rust call that may panic rather than return (the
`.unwrap()` in the real backend's presign implementation). -/
inductive PanicOr (α : Type) where
  | Panicked (msg : String)
  | Value (a : α)
  deriving DecidableEq, Repr

/-- The real backend's `generate_presigned_url`: builds the presigning
config with `PresigningConfig::expires_in(expires_in).unwrap()` — the
`.unwrap()` panics when the constructor rejects the duration — and then
performs the signing callout, abstracted here as the function `sign`. -/
def client_generate_presigned_url
    (sign : String → String → PresigningConfig →
      Except (SdkError GetObjectError) PresignedRequest)
    (bucket key : String) (expires_in : Nat) :
    PanicOr (Except (SdkError GetObjectError) PresignedRequest) :=
  match PresigningConfig.expiresIn expires_in with
  | .error _ =>
      .Panicked "called Result::unwrap() on an Err value: ExpiresInDurationTooLong"
  | .ok config => .Value (sign bucket key config)

/-- S3Util::generate_presigned_url over the real backend: a backend error
is wrapped as `S3ConnectionError`, success yields
`presigned_request.uri()`; a panic in the backend propagates. -/
def generate_presigned_url
    (sign : String → String → PresigningConfig →
      Except (SdkError GetObjectError) PresignedRequest)
    (bucket key : String) (expires_in : Nat) :
    PanicOr (Except GenericServerError String) :=
  match client_generate_presigned_url sign bucket key expires_in with
  | .Panicked m => .Panicked m
  | .Value (.error e) =>
      .Value (.error (.S3ConnectionError "S3Util::generate_presigned_url"
        "Failed to generate presigned URL." e.debugString))
  | .Value (.ok presigned_request) => .Value (.ok presigned_request.uri)

/-! ## Key generator (src/util.rs, `S3KeyGenerator`)

`date_partitioned_unique_key(prefix, datetime)` formats
`{prefix}/{%Y}/{%m}/{%d}/{epoch:011}-{uuid}` for a UTC datetime.  The
datetime is modelled by its epoch second `t : Nat` (the claims' range is
1970 onward), and the random UUID (`uuid::Uuid::new_v4()`) is made an
explicit parameter.  The calendar is modelled from the spec: chrono's
`%Y`/`%m`/`%d` of a UTC datetime are the proleptic Gregorian year, month
and day of `t / 86400` days after 1970-01-01, zero-padded to 4/2/2 digits;
`{:011}` zero-pads the epoch to at least 11 digits. -/

/-- The decimal digit character of `n % 10`. -/
def digitChar (n : Nat) : Char := Char.ofNat (48 + n % 10)

/-- Decimal representation of `n`, zero-padded on the left to at least `w`
characters (the semantics of a `{:0w}` format and of `%Y`/`%m`/`%d`). -/
def padNum (w n : Nat) : List Char :=
  if _h : n < 10 then List.replicate (w - 1) '0' ++ [digitChar n]
  else padNum (w - 1) (n / 10) ++ [digitChar (n % 10)]
termination_by n
decreasing_by exact Nat.div_lt_self (by omega) (by omega)

def isLeapYear (y : Nat) : Bool :=
  (y % 4 == 0 && y % 100 != 0) || y % 400 == 0

def daysInMonth (y m : Nat) : Nat :=
  if m = 2 then (if isLeapYear y then 29 else 28)
  else if m = 4 ∨ m = 6 ∨ m = 9 ∨ m = 11 then 30
  else 31

structure CivilDate where
  year : Nat
  month : Nat
  day : Nat
  deriving DecidableEq, Repr

/-- Successor day in the proleptic Gregorian calendar. -/
def nextDay (d : CivilDate) : CivilDate :=
  if d.day < daysInMonth d.year d.month then ⟨d.year, d.month, d.day + 1⟩
  else if d.month < 12 then ⟨d.year, d.month + 1, 1⟩
  else ⟨d.year + 1, 1, 1⟩

/-- The civil UTC date `n` days after 1970-01-01. -/
def civilFromDays : Nat → CivilDate
  | 0 => ⟨1970, 1, 1⟩
  | n + 1 => nextDay (civilFromDays n)

/-- S3KeyGenerator::date_partitioned_unique_key. -/
def date_partitioned_unique_key (pfx : String) (t : Nat) (uuid : String) :
    String :=
  let d := civilFromDays (t / 86400)
  pfx ++ "/" ++ String.mk (padNum 4 d.year) ++ "/" ++ String.mk (padNum 2 d.month)
    ++ "/" ++ String.mk (padNum 2 d.day) ++ "/" ++ String.mk (padNum 11 t)
    ++ "-" ++ uuid

/-- Cumulative days before month `m` in a non-leap year. -/
def monthOffset : Nat → Nat
  | 1 => 0 | 2 => 31 | 3 => 59 | 4 => 90 | 5 => 120 | 6 => 151
  | 7 => 181 | 8 => 212 | 9 => 243 | 10 => 273 | 11 => 304 | 12 => 334
  | _ => 0

/-- A date reachable from 1970-01-01 by day iteration. -/
def ValidDate (d : CivilDate) : Prop :=
  1970 ≤ d.year ∧ 1 ≤ d.month ∧ d.month ≤ 12 ∧ 1 ≤ d.day ∧
    d.day ≤ daysInMonth d.year d.month

/-- A lower bound on how many days it takes to reach a date from
1970-01-01 (every year has at least 365 days, every month at least its
non-leap length). -/
def dayMeasure (d : CivilDate) : Nat :=
  365 * (d.year - 1970) + monthOffset d.month + (d.day - 1)

/-- A numeric code that orders valid dates lexicographically. -/
def dateCode (d : CivilDate) : Nat := 512 * d.year + 32 * d.month + d.day


/-! ## Auxiliary concrete instances used in concrete evaluations -/

/-- A page with the keyless entries removed (same pagination markers). -/
def eraseKeyless (p : ListObjectsV2Output) : ListObjectsV2Output :=
  ⟨p.contents.filter (fun o => o.key.isSome), p.is_truncated,
    p.next_continuation_token⟩

/-- A backend whose get call fails at the transport level (network
timeout), for exercising the non-service-error read-failure path. -/
def timeoutBackend : S3BackendImpl Unit where
  put_object := fun st _ _ _ _ => (.error (.DispatchFailure "io error"), st)
  get_object := fun st _ _ => (.error (.DispatchFailure "connection timeout"), st)
  head_object := fun st _ _ => (.error (.DispatchFailure "io error"), st)
  copy_object := fun st _ _ _ => (.error (.DispatchFailure "io error"), st)
  delete_object := fun st _ _ => (.error (.DispatchFailure "io error"), st)

/-- A signing function that always succeeds with a fixed URL. -/
def okSign : String → String → PresigningConfig →
    Except (SdkError GetObjectError) PresignedRequest :=
  fun _ _ _ => .ok ⟨"https://bucket.s3.amazonaws.com/k?signed"⟩


/-! ## Properties of the in-memory store -/

theorem memGet_memPut (st : MemStore) (b k b' k' : String) (obj : MemObject) :
    memGet (memPut st b k obj) b' k' =
      if (b, k) = (b', k') then some obj else memGet st b' k' := by
  simp [memPut, memGet]

theorem memGet_memDelete (st : MemStore) (b k b' k' : String) :
    memGet (memDelete st b k) b' k' =
      if (b', k') = (b, k) then none else memGet st b' k' := by
  induction st with
  | nil => simp [memDelete, memGet]
  | cons hd tl ih =>
      obtain ⟨bk, obj⟩ := hd
      simp only [memDelete]
      by_cases h1 : bk = (b, k)
      · rw [if_pos h1, ih]
        by_cases h2 : (b', k') = (b, k)
        · simp [h2]
        · have hne : ¬ bk = (b', k') := by
            rw [h1]; intro h; exact h2 h.symm
          simp [memGet, h2, hne]
      · rw [if_neg h1]
        simp only [memGet]
        by_cases h3 : bk = (b', k')
        · have h2 : ¬ (b', k') = (b, k) := by
            intro h; exact h1 (h3.trans h)
          simp [h3, h2]
        · simp [h3, ih]

/-! ## Properties of the zero-padded decimal formatter -/

theorem padNum_of_lt10 (w n : Nat) (h : n < 10) :
    padNum w n = List.replicate (w - 1) '0' ++ [digitChar n] := by
  rw [padNum.eq_def]; simp [h]

theorem padNum_of_ge10 (w n : Nat) (h : ¬ n < 10) :
    padNum w n = padNum (w - 1) (n / 10) ++ [digitChar (n % 10)] := by
  rw [padNum.eq_def]; simp [h]

theorem digitChar_zero : digitChar 0 = '0' := by decide

/-- Peeling the least-significant digit off a padded number. -/
theorem padNum_succ (w n : Nat) (hw : 1 ≤ w) :
    padNum (w + 1) n = padNum w (n / 10) ++ [digitChar (n % 10)] := by
  by_cases h : n < 10
  · obtain ⟨w', rfl⟩ : ∃ w', w = w' + 1 := ⟨w - 1, by omega⟩
    rw [padNum_of_lt10 _ _ h,
      padNum_of_lt10 _ _ (show n / 10 < 10 by omega),
      Nat.div_eq_of_lt h, Nat.mod_eq_of_lt h, digitChar_zero]
    show List.replicate (w' + 1) '0' ++ [digitChar n] =
      (List.replicate w' '0' ++ ['0']) ++ [digitChar n]
    rw [← List.replicate_succ']
  · rw [padNum_of_ge10 _ _ h]
    simp

theorem padNum_length (w : Nat) : ∀ n, 1 ≤ w → n < 10 ^ w →
    (padNum w n).length = w := by
  induction w with
  | zero => intro n hw _; omega
  | succ w ih =>
      intro n _ hn
      by_cases hw1 : w = 0
      · subst hw1
        rw [padNum_of_lt10 _ _ (by simpa using hn)]
        simp
      · rw [padNum_succ _ _ (by omega)]
        have hq : n / 10 < 10 ^ w := by
          rw [Nat.div_lt_iff_lt_mul (by norm_num)]
          calc n < 10 ^ (w + 1) := hn
            _ = 10 ^ w * 10 := by ring
        simp [ih (n / 10) (by omega) hq]

theorem digitChar_lt_iff :
    ∀ a, a < 10 → ∀ b, b < 10 → (digitChar a < digitChar b ↔ a < b) := by
  decide

/-- Lexicographic comparison restricted to equal-length left parts. -/
theorem lex_append_of_eqlen {u v s t : List Char}
    (h : List.Lex (· < ·) u v) :
    u.length = v.length → List.Lex (· < ·) (u ++ s) (v ++ t) := by
  induction h with
  | nil => intro hlen; simp at hlen
  | cons h ih => intro hlen; exact List.Lex.cons (ih (by simpa using hlen))
  | rel h => intro _; exact List.Lex.rel h

/-- Zero-padding to a common width makes the numeric order lexicographic. -/
theorem padNum_lex (w : Nat) : ∀ a b, a < b → b < 10 ^ w → 1 ≤ w →
    List.Lex (· < ·) (padNum w a) (padNum w b) := by
  induction w with
  | zero => intro a b _ _ h; omega
  | succ w ih =>
      intro a b hab hb _
      by_cases hw : w = 0
      · subst hw
        have ha10 : a < 10 := by omega
        have hb10 : b < 10 := by simpa using hb
        rw [padNum_of_lt10 _ _ ha10, padNum_of_lt10 _ _ hb10]
        simp only [Nat.add_sub_cancel, List.replicate_zero, List.nil_append]
        exact List.Lex.rel ((digitChar_lt_iff a ha10 b hb10).mpr hab)
      · have hw1 : 1 ≤ w := by omega
        rw [padNum_succ _ _ hw1, padNum_succ _ _ hw1]
        have hqb : b / 10 < 10 ^ w := by
          rw [Nat.div_lt_iff_lt_mul (by norm_num)]
          calc b < 10 ^ (w + 1) := hb
            _ = 10 ^ w * 10 := by ring
        rcases Nat.lt_or_ge (a / 10) (b / 10) with hq | hq
        · refine lex_append_of_eqlen (ih (a / 10) (b / 10) hq hqb hw1) ?_
          rw [padNum_length w _ hw1 (by omega), padNum_length w _ hw1 hqb]
        · have hq' : a / 10 = b / 10 := by omega
          rw [hq']
          refine List.Lex.append_left _ ?_ _
          exact List.Lex.rel ((digitChar_lt_iff _ (by omega) _ (by omega)).mpr
            (by omega))

theorem digitChar_isDigit (n : Nat) : (digitChar n).isDigit = true := by
  have h : n % 10 < 10 := Nat.mod_lt _ (by norm_num)
  have key : ∀ k, k < 10 → (Char.ofNat (48 + k)).isDigit = true := by decide
  exact key _ h

theorem padNum_digits (n : Nat) : ∀ w, ∀ c ∈ padNum w n, c.isDigit = true := by
  induction n using Nat.strong_induction_on with
  | _ n ih =>
      intro w c hc
      by_cases h : n < 10
      · rw [padNum_of_lt10 _ _ h] at hc
        rcases List.mem_append.mp hc with h1 | h1
        · rw [List.eq_of_mem_replicate h1]; decide
        · simp at h1; rw [h1]; exact digitChar_isDigit n
      · rw [padNum_of_ge10 _ _ h] at hc
        rcases List.mem_append.mp hc with h1 | h1
        · exact ih (n / 10) (Nat.div_lt_self (by omega) (by norm_num)) _ c h1
        · simp at h1; rw [h1]; exact digitChar_isDigit _

/-! ## Properties of the civil calendar -/

theorem daysInMonth_le_31 (y m : Nat) : daysInMonth y m ≤ 31 := by
  unfold daysInMonth; split
  · split <;> omega
  · split <;> omega

theorem daysInMonth_pos (y m : Nat) : 1 ≤ daysInMonth y m := by
  unfold daysInMonth; split
  · split <;> omega
  · split <;> omega

theorem monthOffset_succ_le (m : Nat) (h1 : 1 ≤ m) (h2 : m ≤ 11) (y : Nat) :
    monthOffset (m + 1) ≤ monthOffset m + daysInMonth y m := by
  interval_cases m <;>
    simp only [monthOffset, daysInMonth] <;>
    first
      | omega
      | (split <;> omega)
      | (norm_num <;> split <;> omega)

theorem nextDay_props (d : CivilDate) (h : ValidDate d) :
    ValidDate (nextDay d) ∧ dayMeasure (nextDay d) ≤ dayMeasure d + 1 ∧
      dateCode d < dateCode (nextDay d) := by
  obtain ⟨hy, hm1, hm2, hd1, hd2⟩ := h
  by_cases h1 : d.day < daysInMonth d.year d.month
  · rw [nextDay, if_pos h1]
    refine ⟨⟨?_, ?_, ?_, ?_, ?_⟩, ?_, ?_⟩ <;>
      dsimp only [ValidDate, dayMeasure, dateCode] <;> omega
  · have hday : d.day = daysInMonth d.year d.month := by omega
    have h31 : daysInMonth d.year d.month ≤ 31 := daysInMonth_le_31 _ _
    by_cases h2 : d.month < 12
    · rw [nextDay, if_neg h1, if_pos h2]
      have hoff := monthOffset_succ_le d.month hm1 (by omega) d.year
      have hpos := daysInMonth_pos d.year (d.month + 1)
      refine ⟨⟨?_, ?_, ?_, ?_, ?_⟩, ?_, ?_⟩ <;>
        dsimp only [ValidDate, dayMeasure, dateCode] <;> omega
    · have hm12 : d.month = 12 := by omega
      rw [nextDay, if_neg h1, if_neg h2]
      have hd31 : daysInMonth d.year 12 = 31 := by norm_num [daysInMonth]
      have hoff12 : monthOffset 12 = 334 := rfl
      have hoff1 : monthOffset 1 = 0 := rfl
      have hpos := daysInMonth_pos (d.year + 1) 1
      have hoffd : monthOffset d.month = 334 := by rw [hm12]; decide
      rw [hm12] at hday
      rw [hd31] at hday
      refine ⟨⟨?_, ?_, ?_, ?_, ?_⟩, ?_, ?_⟩ <;>
        dsimp only [ValidDate, dayMeasure, dateCode] <;> omega

theorem civilFromDays_props (n : Nat) :
    ValidDate (civilFromDays n) ∧ dayMeasure (civilFromDays n) ≤ n := by
  induction n with
  | zero =>
      constructor
      · unfold ValidDate civilFromDays daysInMonth isLeapYear; decide
      · unfold dayMeasure civilFromDays monthOffset; decide
  | succ n ih =>
      obtain ⟨hv, hmeas⟩ := ih
      obtain ⟨hv2, hmeas2, _⟩ := nextDay_props _ hv
      exact ⟨hv2, by rw [civilFromDays]; omega⟩

theorem civilFromDays_code_mono {n1 n2 : Nat} (h : n1 < n2) :
    dateCode (civilFromDays n1) < dateCode (civilFromDays n2) := by
  induction n2 with
  | zero => omega
  | succ n2 ih =>
      have hstep := (nextDay_props _ (civilFromDays_props n2).1).2.2
      rcases Nat.lt_or_ge n1 n2 with h2 | h2
      · exact lt_trans (ih h2) (by rw [civilFromDays]; exact hstep)
      · have : n1 = n2 := by omega
        subst this
        rw [civilFromDays]; exact hstep

theorem dateCode_lt_cases {d1 d2 : CivilDate} (h1 : ValidDate d1)
    (h2 : ValidDate d2) (h : dateCode d1 < dateCode d2) :
    d1.year < d2.year ∨ (d1.year = d2.year ∧ (d1.month < d2.month ∨
      (d1.month = d2.month ∧ d1.day < d2.day))) := by
  obtain ⟨_, hm1, hm2, hd1, hd2⟩ := h1
  obtain ⟨_, hm1', hm2', hd1', hd2'⟩ := h2
  have h31 : d1.day ≤ 31 := le_trans hd2 (daysInMonth_le_31 _ _)
  have h31' : d2.day ≤ 31 := le_trans hd2' (daysInMonth_le_31 _ _)
  simp only [dateCode] at h
  omega

/-- Year bound: within the first 1157408 days after the epoch (that is,
for timestamps below 10^11 seconds, reaching into year 5141) the year
stays four-digit. -/
theorem civilFromDays_year_lt (n : Nat) (hn : n ≤ 1157407) :
    (civilFromDays n).year < 10 ^ 4 := by
  obtain ⟨⟨hy, _, _, _, _⟩, hmeas⟩ := civilFromDays_props n
  simp only [dayMeasure] at hmeas
  have : 365 * ((civilFromDays n).year - 1970) ≤ 1157407 := by omega
  omega

theorem civilFromDays_month_lt (n : Nat) : (civilFromDays n).month < 10 ^ 2 := by
  have := (civilFromDays_props n).1.2.2.1
  omega

theorem civilFromDays_day_lt (n : Nat) : (civilFromDays n).day < 10 ^ 2 := by
  have h := (civilFromDays_props n).1.2.2.2.2
  have := daysInMonth_le_31 (civilFromDays n).year (civilFromDays n).month
  omega

/-! ## Shape and ordering of generated keys -/

theorem dpuk_data (pfx uuid : String) (t : Nat) :
    (date_partitioned_unique_key pfx t uuid).data =
      pfx.data ++ '/' :: (padNum 4 (civilFromDays (t / 86400)).year ++
        '/' :: (padNum 2 (civilFromDays (t / 86400)).month ++
        '/' :: (padNum 2 (civilFromDays (t / 86400)).day ++
        '/' :: (padNum 11 t ++ '-' :: uuid.data)))) := by
  have hslash : ("/" : String).data = ['/'] := rfl
  have hdash : ("-" : String).data = ['-'] := rfl
  simp [date_partitioned_unique_key, String.data_append, hslash, hdash]

theorem dpuk_shape (pfx uuid : String) (t : Nat) (h : t < 10 ^ 11) :
    ∃ ys ms ds es : List Char,
      date_partitioned_unique_key pfx t uuid =
        pfx ++ "/" ++ String.mk ys ++ "/" ++ String.mk ms ++ "/" ++
          String.mk ds ++ "/" ++ String.mk es ++ "-" ++ uuid ∧
      ys.length = 4 ∧ ms.length = 2 ∧ ds.length = 2 ∧ es.length = 11 ∧
      ∀ c ∈ ys ++ ms ++ ds ++ es, c.isDigit = true := by
  have hn : t / 86400 ≤ 1157407 := by omega
  refine ⟨padNum 4 (civilFromDays (t / 86400)).year,
    padNum 2 (civilFromDays (t / 86400)).month,
    padNum 2 (civilFromDays (t / 86400)).day, padNum 11 t, rfl,
    padNum_length 4 _ (by norm_num) (civilFromDays_year_lt _ hn),
    padNum_length 2 _ (by norm_num) (civilFromDays_month_lt _),
    padNum_length 2 _ (by norm_num) (civilFromDays_day_lt _),
    padNum_length 11 _ (by norm_num) h, ?_⟩
  intro c hc
  rcases List.mem_append.mp hc with hc1 | hc4
  · rcases List.mem_append.mp hc1 with hc2 | hc3
    · rcases List.mem_append.mp hc2 with hc5 | hc6
      · exact padNum_digits _ _ c hc5
      · exact padNum_digits _ _ c hc6
    · exact padNum_digits _ _ c hc3
  · exact padNum_digits _ _ c hc4

theorem dpuk_lt (pfx u1 u2 : String) (t1 t2 : Nat) (h1 : t1 < 10 ^ 11)
    (h2 : t2 < 10 ^ 11) (hlt : t1 < t2) :
    date_partitioned_unique_key pfx t1 u1 < date_partitioned_unique_key pfx t2 u2 := by
  rw [String.lt_iff_toList_lt]
  show List.Lex (· < ·) (date_partitioned_unique_key pfx t1 u1).data
    (date_partitioned_unique_key pfx t2 u2).data
  rw [dpuk_data, dpuk_data]
  apply List.Lex.append_left
  apply List.Lex.cons
  have hn1 : t1 / 86400 ≤ 1157407 := by omega
  have hn2 : t2 / 86400 ≤ 1157407 := by omega
  have hy1 := civilFromDays_year_lt _ hn1
  have hy2 := civilFromDays_year_lt _ hn2
  have hv1 := (civilFromDays_props (t1 / 86400)).1
  have hv2 := (civilFromDays_props (t2 / 86400)).1
  have hdays : t1 / 86400 ≤ t2 / 86400 := Nat.div_le_div_right hlt.le
  rcases eq_or_lt_of_le hdays with hde | hdlt
  · have hd : civilFromDays (t1 / 86400) = civilFromDays (t2 / 86400) := by
      rw [hde]
    rw [hd]
    apply List.Lex.append_left
    apply List.Lex.cons
    apply List.Lex.append_left
    apply List.Lex.cons
    apply List.Lex.append_left
    apply List.Lex.cons
    refine lex_append_of_eqlen (padNum_lex 11 t1 t2 hlt h2 (by norm_num)) ?_
    rw [padNum_length 11 _ (by norm_num) h1, padNum_length 11 _ (by norm_num) h2]
  · have hcode := civilFromDays_code_mono hdlt
    rcases dateCode_lt_cases hv1 hv2 hcode with hy | ⟨hyeq, hm | ⟨hmeq, hd⟩⟩
    · refine lex_append_of_eqlen (padNum_lex 4 _ _ hy hy2 (by norm_num)) ?_
      rw [padNum_length 4 _ (by norm_num) hy1, padNum_length 4 _ (by norm_num) hy2]
    · rw [hyeq]
      apply List.Lex.append_left
      apply List.Lex.cons
      refine lex_append_of_eqlen
        (padNum_lex 2 _ _ hm (civilFromDays_month_lt _) (by norm_num)) ?_
      rw [padNum_length 2 _ (by norm_num) (civilFromDays_month_lt _),
        padNum_length 2 _ (by norm_num) (civilFromDays_month_lt _)]
    · rw [hyeq, hmeq]
      apply List.Lex.append_left
      apply List.Lex.cons
      apply List.Lex.append_left
      apply List.Lex.cons
      refine lex_append_of_eqlen
        (padNum_lex 2 _ _ hd (civilFromDays_day_lt _) (by norm_num)) ?_
      rw [padNum_length 2 _ (by norm_num) (civilFromDays_day_lt _),
        padNum_length 2 _ (by norm_num) (civilFromDays_day_lt _)]

theorem dpuk_ne (pfx u1 u2 : String) (t : Nat) (hu : u1 ≠ u2) :
    date_partitioned_unique_key pfx t u1 ≠ date_partitioned_unique_key pfx t u2 := by
  intro h
  apply hu
  have hdata := congrArg String.data h
  rw [dpuk_data, dpuk_data] at hdata
  simp only [List.append_cancel_left_eq, List.cons.injEq, true_and] at hdata
  exact String.ext hdata

/-! ## Pagination lemmas -/

theorem list_keys_cons_ok (p : ListObjectsV2Output)
    (rest : List (Except (SdkError ListObjectsV2Error) ListObjectsV2Output)) :
    list_keys (Except.ok p :: rest) =
      if pageContinues p = true then
        ((list_keys rest).1.map (fun ks => pageKeys p ++ ks),
          (list_keys rest).2 + 1)
      else (.ok (pageKeys p), 1) := rfl

theorem list_keys_cons_error (e : SdkError ListObjectsV2Error)
    (rest : List (Except (SdkError ListObjectsV2Error) ListObjectsV2Output)) :
    list_keys (Except.error e :: rest) = (.error e, 1) := rfl

theorem list_keys_wellFormed (ps : List ListObjectsV2Output)
    (h : wellFormedPages ps) :
    list_keys (ps.map Except.ok) = (.ok (ps.flatMap pageKeys), ps.length) := by
  induction ps with
  | nil => exact absurd h (by simp [wellFormedPages])
  | cons p rest ih =>
      cases rest with
      | nil =>
          have hp : pageContinues p = false := h
          rw [List.map_cons, List.map_nil, list_keys_cons_ok]
          simp [hp]
      | cons q rest2 =>
          obtain ⟨hp, hwf⟩ := h
          rw [List.map_cons, list_keys_cons_ok, ih hwf]
          simp [hp, Except.map]

theorem pageKeys_eraseKeyless (p : ListObjectsV2Output) :
    pageKeys (eraseKeyless p) = pageKeys p := by
  simp only [pageKeys, eraseKeyless]
  induction p.contents with
  | nil => rfl
  | cons o rest ih =>
      cases ho : o.key <;> simp [List.filter, List.filterMap, ho, ih]

theorem pageContinues_eraseKeyless (p : ListObjectsV2Output) :
    pageContinues (eraseKeyless p) = pageContinues p := rfl

theorem list_keys_eraseKeyless (ps : List ListObjectsV2Output) :
    list_keys ((ps.map eraseKeyless).map Except.ok) =
      list_keys (ps.map Except.ok) := by
  induction ps with
  | nil => rfl
  | cons p rest ih =>
      rw [List.map_cons, List.map_cons, List.map_cons, list_keys_cons_ok,
        list_keys_cons_ok, ih, pageKeys_eraseKeyless,
        pageContinues_eraseKeyless]

/-- C3: against a well-formed sequence of backend pages — every page but
the last truncated with a continuation token, the last one either
not-truncated or truncated without a token — the listing loop returns the
concatenation of all pages' keys in request order, issues exactly one
request per page, and terminates normally. -/
theorem list_keys_complete (ps : List ListObjectsV2Output)
    (h : wellFormedPages ps) :
    list_keys (ps.map Except.ok) = (.ok (ps.flatMap pageKeys), ps.length) :=
  list_keys_wellFormed ps h

/-- C3 witness: two pages; the second is truncated but supplies no
continuation token and is treated as end-of-listing. -/
theorem list_keys_complete_witness :
    list_keys ([(⟨[⟨some "a"⟩, ⟨none⟩], some true, some "tok"⟩ :
        ListObjectsV2Output),
      ⟨[⟨some "b"⟩], some true, none⟩].map Except.ok) =
      (.ok ["a", "b"], 2) :=
  list_keys_complete
    [⟨[⟨some "a"⟩, ⟨none⟩], some true, some "tok"⟩,
      ⟨[⟨some "b"⟩], some true, none⟩] ⟨rfl, rfl⟩

/-- C5: if any page request fails, the loop propagates that error — after
exactly the failing request — and surfaces none of the keys accumulated
from the earlier successful pages. -/
theorem list_keys_error_discards (front : List ListObjectsV2Output)
    (e : SdkError ListObjectsV2Error)
    (rest : List (Except (SdkError ListObjectsV2Error) ListObjectsV2Output))
    (h : ∀ p ∈ front, pageContinues p = true) :
    list_keys (front.map Except.ok ++ .error e :: rest) =
      (.error e, front.length + 1) := by
  induction front with
  | nil => simp [list_keys]
  | cons p front2 ih =>
      have hp : pageContinues p = true := h p (by simp)
      have hrec := ih (fun q hq => h q (by simp [hq]))
      rw [List.map_cons, List.cons_append, list_keys_cons_ok, hrec]
      simp [hp, Except.map]

/-- C5 witness: one successful page of keys followed by a throttling
failure; the result is the bare error, with no partial key list. -/
theorem list_keys_error_discards_witness :
    list_keys ([Except.ok (⟨[⟨some "a"⟩, ⟨some "b"⟩], some true, some "t"⟩ :
        ListObjectsV2Output),
      Except.error (.ServiceError (.Unhandled "SlowDown"))]) =
      (.error (.ServiceError (.Unhandled "SlowDown")), 2) :=
  list_keys_error_discards [⟨[⟨some "a"⟩, ⟨some "b"⟩], some true, some "t"⟩]
    (.ServiceError (.Unhandled "SlowDown")) []
    (by decide)

/-- C10: page entries whose key field is absent are silently dropped: the
result over any well-formed page sequence is unchanged if keyless entries
are removed first, and it succeeds with exactly the key strings of the
entries that carry a key, in page order. -/
theorem list_keys_keyless_dropped (ps : List ListObjectsV2Output)
    (h : wellFormedPages ps) :
    list_keys (ps.map Except.ok) =
      list_keys ((ps.map eraseKeyless).map Except.ok) ∧
    (list_keys (ps.map Except.ok)).1 =
      .ok (ps.flatMap (fun p => p.contents.filterMap (fun o => o.key))) :=
  ⟨(list_keys_eraseKeyless ps).symm, by rw [list_keys_wellFormed ps h]; rfl⟩

/-- C10 witness: a single page with a keyless entry between two keyed
ones; the keyless entry vanishes without an error. -/
theorem list_keys_keyless_dropped_witness :
    list_keys ([(⟨[⟨some "a"⟩, ⟨none⟩, ⟨some "b"⟩], some false, none⟩ :
        ListObjectsV2Output)].map Except.ok) =
      list_keys (([(⟨[⟨some "a"⟩, ⟨none⟩, ⟨some "b"⟩], some false, none⟩ :
        ListObjectsV2Output)].map eraseKeyless).map Except.ok) ∧
    (list_keys ([(⟨[⟨some "a"⟩, ⟨none⟩, ⟨some "b"⟩], some false, none⟩ :
        ListObjectsV2Output)].map Except.ok)).1 = .ok ["a", "b"] :=
  list_keys_keyless_dropped [⟨[⟨some "a"⟩, ⟨none⟩, ⟨some "b"⟩], some false, none⟩]
    rfl

/-! ## Head-check classification -/

/-- C2: key_exists returns `false` exactly when the backend head_object
call reports a NotFound service error, returns `true` when head_object
succeeds, and surfaces every other head_object failure — service errors
other than NotFound, and non-service transport failures — as a callout
(connection) error rather than mapping it to `false`. -/
theorem key_exists_classification {σ : Type} (u : S3Util σ) (st : σ)
    (key : String) :
    ((u.key_exists st key).1 = .ok false ↔
      ∃ m, (u.backend.head_object st u.bucket key).1 =
        .error (.ServiceError (.NotFound m))) ∧
    (∀ out, (u.backend.head_object st u.bucket key).1 = .ok out →
      (u.key_exists st key).1 = .ok true) ∧
    (∀ e, (u.backend.head_object st u.bucket key).1 = .error e →
      (∀ m, e ≠ .ServiceError (.NotFound m)) →
      ∃ c m d, (u.key_exists st key).1 = .error (.S3ConnectionError c m d)) := by
  rcases hh : u.backend.head_object st u.bucket key with ⟨resp, st1⟩
  cases resp with
  | ok out =>
      exact ⟨by simp [S3Util.key_exists, hh], fun o _ => by
        simp [S3Util.key_exists, hh], fun e he hne => by simp at he⟩
  | error sdkErr =>
      cases sdkErr with
      | ServiceError se =>
          cases se with
          | NotFound m =>
              refine ⟨⟨fun _ => ⟨m, rfl⟩, fun _ => by
                simp [S3Util.key_exists, hh]⟩, fun o ho => by simp at ho,
                fun e he hne => ?_⟩
              simp at he
              subst he
              exact absurd rfl (hne m)
          | Unhandled m =>
              exact ⟨by simp [S3Util.key_exists, hh], fun o ho => by
                simp at ho, fun e he hne => by simp [S3Util.key_exists, hh]⟩
      | ConstructionFailure m =>
          exact ⟨by simp [S3Util.key_exists, hh], fun o ho => by simp at ho,
            fun e he hne => by simp [S3Util.key_exists, hh]⟩
      | TimeoutError m =>
          exact ⟨by simp [S3Util.key_exists, hh], fun o ho => by simp at ho,
            fun e he hne => by simp [S3Util.key_exists, hh]⟩
      | DispatchFailure m =>
          exact ⟨by simp [S3Util.key_exists, hh], fun o ho => by simp at ho,
            fun e he hne => by simp [S3Util.key_exists, hh]⟩
      | ResponseError m =>
          exact ⟨by simp [S3Util.key_exists, hh], fun o ho => by simp at ho,
            fun e he hne => by simp [S3Util.key_exists, hh]⟩

/-- C2 witness: against the in-memory backend, a missing key answers
`false` and a present key answers `true`. -/
theorem key_exists_classification_witness :
    ((S3Util.mk (memBackend none none) "b").key_exists [] "k").1 =
      Except.ok false ∧
    ((S3Util.mk (memBackend none none) "b").key_exists
      (memPut [] "b" "k" ⟨"data", none⟩) "k").1 = Except.ok true :=
  ⟨(key_exists_classification _ _ _).1.mpr ⟨"NotFound", rfl⟩,
    (key_exists_classification _ _ _).2.1 ⟨none, some 4⟩ (by decide)⟩

/-- C8: get_metadata_if_key_exists returns `some` of the metadata map —
with an absent map normalized to the empty mapping — when the head check
succeeds, `none` exactly when the head check reports NotFound, and a
callout (connection) error for every other head-check failure. -/
theorem get_metadata_if_key_exists_classification {σ : Type} (u : S3Util σ)
    (st : σ) (key : String) :
    (∀ out, (u.backend.head_object st u.bucket key).1 = .ok out →
      (u.get_metadata_if_key_exists st key).1 =
        .ok (some (out.metadata.getD []))) ∧
    ((u.get_metadata_if_key_exists st key).1 = .ok none ↔
      ∃ m, (u.backend.head_object st u.bucket key).1 =
        .error (.ServiceError (.NotFound m))) ∧
    (∀ e, (u.backend.head_object st u.bucket key).1 = .error e →
      (∀ m, e ≠ .ServiceError (.NotFound m)) →
      ∃ c m d, (u.get_metadata_if_key_exists st key).1 =
        .error (.S3ConnectionError c m d)) := by
  rcases hh : u.backend.head_object st u.bucket key with ⟨resp, st1⟩
  cases resp with
  | ok out =>
      refine ⟨fun o ho => ?_, by simp [S3Util.get_metadata_if_key_exists, hh],
        fun e he hne => by simp at he⟩
      simp at ho
      subst ho
      simp [S3Util.get_metadata_if_key_exists, hh]
  | error sdkErr =>
      cases sdkErr with
      | ServiceError se =>
          cases se with
          | NotFound m =>
              refine ⟨fun o ho => by simp at ho, ⟨fun _ => ⟨m, rfl⟩,
                fun _ => by simp [S3Util.get_metadata_if_key_exists, hh]⟩,
                fun e he hne => ?_⟩
              simp at he
              subst he
              exact absurd rfl (hne m)
          | Unhandled m =>
              exact ⟨fun o ho => by simp at ho, by
                simp [S3Util.get_metadata_if_key_exists, hh], fun e he hne => by
                simp [S3Util.get_metadata_if_key_exists, hh]⟩
      | ConstructionFailure m =>
          exact ⟨fun o ho => by simp at ho, by
            simp [S3Util.get_metadata_if_key_exists, hh], fun e he hne => by
            simp [S3Util.get_metadata_if_key_exists, hh]⟩
      | TimeoutError m =>
          exact ⟨fun o ho => by simp at ho, by
            simp [S3Util.get_metadata_if_key_exists, hh], fun e he hne => by
            simp [S3Util.get_metadata_if_key_exists, hh]⟩
      | DispatchFailure m =>
          exact ⟨fun o ho => by simp at ho, by
            simp [S3Util.get_metadata_if_key_exists, hh], fun e he hne => by
            simp [S3Util.get_metadata_if_key_exists, hh]⟩
      | ResponseError m =>
          exact ⟨fun o ho => by simp at ho, by
            simp [S3Util.get_metadata_if_key_exists, hh], fun e he hne => by
            simp [S3Util.get_metadata_if_key_exists, hh]⟩

/-- C8 witness: a stored object without metadata yields `some` of the
empty mapping (absence normalized, not propagated), and a missing key
yields `none`. -/
theorem get_metadata_if_key_exists_classification_witness :
    ((S3Util.mk (memBackend none none) "b").get_metadata_if_key_exists
      (memPut [] "b" "k" ⟨"data", none⟩) "k").1 = Except.ok (some []) ∧
    ((S3Util.mk (memBackend none none) "b").get_metadata_if_key_exists
      [] "k").1 = Except.ok none :=
  ⟨(get_metadata_if_key_exists_classification _ _ _).1 ⟨none, some 4⟩
      (by decide),
    (get_metadata_if_key_exists_classification _ _ _).2.1.mpr
      ⟨"NotFound", rfl⟩⟩

/-! ## get_serializable error classification -/

/-- C1 (amended): get_serializable fails with the Not-Found error for
every backend get failure — absence, network, throttling or permission
alike, since the source maps all get errors to `S3NotFound` — fails with
a callout (connection) error when the get succeeded but draining the body
fails, fails with the item-parsing error when the body is not valid for
the target type, and succeeds otherwise. -/
theorem get_serializable_classification {σ α : Type} (u : S3Util σ)
    (deserialize : String → Except String α) (st : σ) (key : String) :
    (∀ e, (u.backend.get_object st u.bucket key).1 = .error e →
      (u.get_serializable deserialize st key).1 = .error .S3NotFound) ∧
    (∀ output msg, (u.backend.get_object st u.bucket key).1 = .ok output →
      output.body = .error msg →
      (u.get_serializable deserialize st key).1 = .error (.S3ConnectionError
        "S3Util::get_serializable" "Failed to read object body." msg)) ∧
    (∀ output bytes msg, (u.backend.get_object st u.bucket key).1 = .ok output →
      output.body = .ok bytes → deserialize bytes = .error msg →
      (u.get_serializable deserialize st key).1 = .error (.S3ItemParsingError
        "S3Util::get_serializable" "Failed to deserialize object." msg)) ∧
    (∀ output bytes v, (u.backend.get_object st u.bucket key).1 = .ok output →
      output.body = .ok bytes → deserialize bytes = .ok v →
      (u.get_serializable deserialize st key).1 = .ok v) := by
  rcases hh : u.backend.get_object st u.bucket key with ⟨resp, st1⟩
  cases resp with
  | ok output =>
      refine ⟨fun e he => by simp at he, fun o msg ho hbody => ?_,
        fun o bytes msg ho hbody hde => ?_, fun o bytes v ho hbody hde => ?_⟩
      · simp at ho; subst ho
        simp [S3Util.get_serializable, hh, hbody]
      · simp at ho; subst ho
        simp [S3Util.get_serializable, hh, hbody, hde]
      · simp at ho; subst ho
        simp [S3Util.get_serializable, hh, hbody, hde]
  | error e0 =>
      exact ⟨fun e he => by simp [S3Util.get_serializable, hh],
        fun o msg ho _ => by simp at ho,
        fun o bytes msg ho _ _ => by simp at ho,
        fun o bytes v ho _ _ => by simp at ho⟩

/-- C1 witness (amended form): a network-level get failure yields
Not-Found; a successful get with a parseable body yields the value. -/
theorem get_serializable_classification_witness :
    ((S3Util.mk timeoutBackend "bucket").get_serializable
      (fun s => Except.ok s) () "k").1 =
      Except.error GenericServerError.S3NotFound ∧
    ((S3Util.mk (memBackend none none) "b").get_serializable
      (fun s => Except.ok s) (memPut [] "b" "k" ⟨"data", none⟩) "k").1 =
      Except.ok "data" :=
  ⟨(get_serializable_classification _ _ _ _).1
      (.DispatchFailure "connection timeout") rfl,
    (get_serializable_classification _ _ _ _).2.2.2 ⟨.ok "data"⟩ "data" "data"
      (by decide) rfl rfl⟩

/-- C1 counterexample to the claim as stated: a transport-level (network)
failure of the get call — a failure that is not an absence of the key —
is reported as the user-visible Not-Found error, not as a callout
(connection) error. -/
theorem get_serializable_network_failure_reports_not_found :
    ((S3Util.mk timeoutBackend "bucket").get_serializable
      (fun s => Except.ok s) () "k").1 =
      Except.error GenericServerError.S3NotFound ∧
    ∀ c m d, (Except.error GenericServerError.S3NotFound :
        Except GenericServerError String) ≠
      Except.error (.S3ConnectionError c m d) :=
  ⟨rfl, fun c m d h => by simp at h⟩

/-! ## move_object and the serialization round trip -/

/-- C4: move_object performs the copy step first and invokes the delete
step only if the copy succeeded: on overall success the target key holds
the object and the source key is gone; if the copy succeeds and the
delete fails, the operation returns a callout (connection) error and both
keys remain populated; if the copy fails, the store is untouched (the
delete is never invoked). -/
theorem move_object_semantics (st : MemStore) (bucket src tgt : String)
    (obj : MemObject) (ce : SdkError CopyObjectError)
    (de : SdkError DeleteObjectError)
    (hsrc : memGet st bucket src = some obj) (hne : src ≠ tgt) :
    ((S3Util.mk (memBackend none none) bucket).move_object st src tgt).1 =
      .ok () ∧
    memGet ((S3Util.mk (memBackend none none) bucket).move_object
      st src tgt).2 bucket tgt = some obj ∧
    memGet ((S3Util.mk (memBackend none none) bucket).move_object
      st src tgt).2 bucket src = none ∧
    ((S3Util.mk (memBackend none (some de)) bucket).move_object st src tgt).1 =
      .error (.S3ConnectionError "S3Util::move_object"
        "Failed to delete object." de.debugString) ∧
    memGet ((S3Util.mk (memBackend none (some de)) bucket).move_object
      st src tgt).2 bucket src = some obj ∧
    memGet ((S3Util.mk (memBackend none (some de)) bucket).move_object
      st src tgt).2 bucket tgt = some obj ∧
    ((S3Util.mk (memBackend (some ce) none) bucket).move_object st src tgt).1 =
      .error (.S3ConnectionError "S3Util::move_object"
        "Failed to copy object." ce.debugString) ∧
    ((S3Util.mk (memBackend (some ce) none) bucket).move_object
      st src tgt).2 = st := by
  have hts : tgt ≠ src := Ne.symm hne
  refine ⟨?_, ?_, ?_, ?_, ?_, ?_, ?_, ?_⟩ <;>
    simp [S3Util.move_object, memBackend, hsrc, memGet_memDelete,
      memGet_memPut, hne, hts]

/-- C4 witness: concrete store with one object at key a, moved to key b;
the delete-failure and copy-failure runs observed at the same store. -/
theorem move_object_semantics_witness :
    ((S3Util.mk (memBackend none none) "bkt").move_object
      (memPut [] "bkt" "a" ⟨"data", none⟩) "a" "b").1 = .ok () ∧
    memGet ((S3Util.mk (memBackend none none) "bkt").move_object
      (memPut [] "bkt" "a" ⟨"data", none⟩) "a" "b").2 "bkt" "a" = none ∧
    memGet ((S3Util.mk (memBackend none
        (some (.DispatchFailure "io error"))) "bkt").move_object
      (memPut [] "bkt" "a" ⟨"data", none⟩) "a" "b").2 "bkt" "a" =
      some ⟨"data", none⟩ ∧
    memGet ((S3Util.mk (memBackend none
        (some (.DispatchFailure "io error"))) "bkt").move_object
      (memPut [] "bkt" "a" ⟨"data", none⟩) "a" "b").2 "bkt" "b" =
      some ⟨"data", none⟩ ∧
    ((S3Util.mk (memBackend (some (.DispatchFailure "io error")) none)
        "bkt").move_object
      (memPut [] "bkt" "a" ⟨"data", none⟩) "a" "b").2 =
      memPut [] "bkt" "a" ⟨"data", none⟩ :=
  ⟨(move_object_semantics _ "bkt" "a" "b" ⟨"data", none⟩
      (.DispatchFailure "io error") (.DispatchFailure "io error")
      (by decide) (by decide)).1,
    (move_object_semantics _ "bkt" "a" "b" ⟨"data", none⟩
      (.DispatchFailure "io error") (.DispatchFailure "io error")
      (by decide) (by decide)).2.2.1,
    (move_object_semantics _ "bkt" "a" "b" ⟨"data", none⟩
      (.DispatchFailure "io error") (.DispatchFailure "io error")
      (by decide) (by decide)).2.2.2.2.1,
    (move_object_semantics _ "bkt" "a" "b" ⟨"data", none⟩
      (.DispatchFailure "io error") (.DispatchFailure "io error")
      (by decide) (by decide)).2.2.2.2.2.1,
    (move_object_semantics _ "bkt" "a" "b" ⟨"data", none⟩
      (.DispatchFailure "io error") (.DispatchFailure "io error")
      (by decide) (by decide)).2.2.2.2.2.2.2⟩

/-- C6: for every serializable value — one the serializer accepts and the
deserializer inverts — putting it at a key and then getting that key
against the healthy in-memory backend, with no intervening write,
succeeds and returns an equal value. -/
theorem put_get_round_trip {α : Type} (serialize : α → Except String String)
    (deserialize : String → Except String α) (st : MemStore)
    (bucket key : String) (v : α) (s : String)
    (hser : serialize v = .ok s) (hde : deserialize s = .ok v) :
    ((S3Util.mk (memBackend none none) bucket).put_serializable
      serialize st key v).1 = .ok () ∧
    ((S3Util.mk (memBackend none none) bucket).get_serializable deserialize
      ((S3Util.mk (memBackend none none) bucket).put_serializable
        serialize st key v).2 key).1 = .ok v := by
  constructor
  · simp [S3Util.put_serializable, memBackend, hser]
  · simp [S3Util.put_serializable, S3Util.get_serializable, memBackend,
      hser, hde, memGet_memPut]

/-- C6 witness: the number 42 serialized to its decimal string survives
the put/get round trip. -/
theorem put_get_round_trip_witness :
    ((S3Util.mk (memBackend none none) "b").put_serializable
      (fun n : Nat => Except.ok (toString n)) [] "k" 42).1 = .ok () ∧
    ((S3Util.mk (memBackend none none) "b").get_serializable
      (fun str => if str = "42" then Except.ok 42 else
        Except.error "invalid number")
      ((S3Util.mk (memBackend none none) "b").put_serializable
        (fun n : Nat => Except.ok (toString n)) [] "k" 42).2 "k").1 =
      Except.ok 42 :=
  put_get_round_trip _ _ [] "b" "k" 42 "42" (by decide) (by decide)

/-! ## Presigned URL generation -/

/-- C9 (amended): for every duration with 0 < expires_in ≤ one week, the
facade presign operation either returns a URL string or fails with a
callout (connection) error; the panicking unwrap on the
presigning-configuration step is not reached. -/
theorem generate_presigned_url_total
    (sign : String → String → PresigningConfig →
      Except (SdkError GetObjectError) PresignedRequest)
    (bucket key : String) (expires_in : Nat) (h1 : 0 < expires_in)
    (h2 : expires_in ≤ ONE_WEEK) :
    (∃ url, generate_presigned_url sign bucket key expires_in =
      .Value (.ok url)) ∨
    (∃ c m d, generate_presigned_url sign bucket key expires_in =
      .Value (.error (.S3ConnectionError c m d))) := by
  unfold generate_presigned_url client_generate_presigned_url
    PresigningConfig.expiresIn
  rw [if_neg (by omega)]
  rcases hs : sign bucket key ⟨expires_in⟩ with e | req
  · right
    exact ⟨"S3Util::generate_presigned_url", "Failed to generate presigned URL.",
      e.debugString, by simp [hs]⟩
  · left
    exact ⟨req.uri, by simp [hs]⟩

/-- C9 witness: a one-hour expiry with an always-succeeding signer
returns a URL or a connection error (here: the URL branch). -/
theorem generate_presigned_url_total_witness :
    (∃ url, generate_presigned_url okSign "bucket" "k" 3600 =
      .Value (.ok url)) ∨
    (∃ c m d, generate_presigned_url okSign "bucket" "k" 3600 =
      .Value (.error (.S3ConnectionError c m d))) :=
  generate_presigned_url_total okSign "bucket" "k" 3600 (by decide) (by decide)

/-- C9 counterexample to the claim as stated: one week plus one second is
a positive duration, yet the call panics in the configuration unwrap — a
third outcome beyond a URL or a callout error. -/
theorem generate_presigned_url_panics_beyond_one_week :
    0 < ONE_WEEK + 1 ∧
    generate_presigned_url okSign "bucket" "k" (ONE_WEEK + 1) =
      .Panicked
        "called Result::unwrap() on an Err value: ExpiresInDurationTooLong" ∧
    ∀ r : Except GenericServerError String,
      (PanicOr.Panicked
        "called Result::unwrap() on an Err value: ExpiresInDurationTooLong" :
          PanicOr (Except GenericServerError String)) ≠ .Value r :=
  ⟨by decide, by decide, fun r h => PanicOr.noConfusion h⟩

/-! ## Generated key shape, order and uniqueness -/

/-- C7: for timestamps in the 11-digit epoch range (up to year 5141),
date_partitioned_unique_key produces
prefix/4-digit-year/2-digit-month/2-digit-day/11-digit-epoch-uuid with
all-digit numeric fields; for a fixed prefix its outputs are strictly
increasing in lexicographic string order as the timestamp increases; and
two invocations at the same timestamp with distinct random components
produce distinct keys. -/
theorem date_partitioned_unique_key_spec (pfx u1 u2 : String) (t1 t2 : Nat)
    (h1 : t1 < 10 ^ 11) (h2 : t2 < 10 ^ 11) (hlt : t1 < t2) (hu : u1 ≠ u2) :
    (∃ ys ms ds es : List Char,
      date_partitioned_unique_key pfx t1 u1 =
        pfx ++ "/" ++ String.mk ys ++ "/" ++ String.mk ms ++ "/" ++
          String.mk ds ++ "/" ++ String.mk es ++ "-" ++ u1 ∧
      ys.length = 4 ∧ ms.length = 2 ∧ ds.length = 2 ∧ es.length = 11 ∧
      ∀ c ∈ ys ++ ms ++ ds ++ es, c.isDigit = true) ∧
    date_partitioned_unique_key pfx t1 u1 <
      date_partitioned_unique_key pfx t2 u2 ∧
    date_partitioned_unique_key pfx t1 u1 ≠
      date_partitioned_unique_key pfx t1 u2 :=
  ⟨dpuk_shape pfx u1 t1 h1, dpuk_lt pfx u1 u2 t1 t2 h1 h2 hlt,
    dpuk_ne pfx u1 u2 t1 hu⟩

/-- C7 witness: two keys generated one second apart at the epoch, with
distinct uuids. -/
theorem date_partitioned_unique_key_spec_witness :
    (∃ ys ms ds es : List Char,
      date_partitioned_unique_key "media" 0 "u1" =
        "media" ++ "/" ++ String.mk ys ++ "/" ++ String.mk ms ++ "/" ++
          String.mk ds ++ "/" ++ String.mk es ++ "-" ++ "u1" ∧
      ys.length = 4 ∧ ms.length = 2 ∧ ds.length = 2 ∧ es.length = 11 ∧
      ∀ c ∈ ys ++ ms ++ ds ++ es, c.isDigit = true) ∧
    date_partitioned_unique_key "media" 0 "u1" <
      date_partitioned_unique_key "media" 1 "u2" ∧
    date_partitioned_unique_key "media" 0 "u1" ≠
      date_partitioned_unique_key "media" 0 "u2" :=
  date_partitioned_unique_key_spec "media" "u1" "u2" 0 1 (by decide)
    (by decide) (by decide) (by decide)
